import Mathlib

/-!
Shallow embedding of the Gamechanger extraction pipeline.

The embedding models the code of `src/server.ts` (the `/api/extract`
orchestrator: mandatory registry lookups, filing selection, primary and
fallback AI extraction, demographic inference, web search, row assembly)
and of `src/vite.config.ts` (the `ch-pdf-proxy` middleware: the
redirect-aware secure document fetch).

External services (registry HTTP endpoints, PDF downloads, the AI
provider, the web-search provider) are modelled as oracles supplied in an
environment record: each oracle gives, for the concrete argument the code
passes, the settled outcome of the corresponding asynchronous call
(`Except` errors standing for rejected promises / thrown exceptions).
JavaScript values that may be `undefined` are modelled as `Option`;
JavaScript truthiness of a string-or-undefined value is `truthy` below.
The pipeline functions additionally return a `Trace` recording which
stages issued calls, so that claims about stages never being invoked are
statements about the trace.
-/

namespace Gamechanger

/-- Character-list test: `pat` is an initial segment of the second list. -/
def listStarts : List Char → List Char → Bool
  | [], _ => true
  | _ :: _, [] => false
  | p :: ps, c :: cs => p == c && listStarts ps cs

/-- Character-list test: `pat` occurs contiguously in the list. -/
def listHas (pat : List Char) : List Char → Bool
  | [] => listStarts pat []
  | c :: cs => listStarts pat (c :: cs) || listHas pat cs

/-- Model of JavaScript `s.includes(pat)` (substring containment). -/
def strIncludes (s pat : String) : Bool := listHas pat.data s.data

/-- Model of JavaScript `s.trim()` on the strings this code handles. -/
def strTrim (s : String) : String :=
  String.mk (((s.data.dropWhile Char.isWhitespace).reverse.dropWhile
    Char.isWhitespace).reverse)

/-- JavaScript truthiness of a string-or-undefined value: `undefined` and
the empty string are falsy. -/
def truthy : Option String → Bool
  | none => false
  | some s => s ≠ ""

/-- One filing-history item, as read by the code: `item.category`,
`item.description` (may be absent) and `item.links?.document_metadata`
(may be absent). -/
structure FilingItem where
  category : String
  description : Option String
  documentMetadata : Option String
deriving Repr, DecidableEq

/-- One officers-list item, as read by the code: `o.name`, `o.officer_role`. -/
structure Officer where
  name : String
  officer_role : String
deriving Repr, DecidableEq

/-- Company profile fields the code reads: `company_name`, `company_number`. -/
structure CompanyData where
  company_name : String
  company_number : String
deriving Repr, DecidableEq

/-- Parsed AI extraction output (`extractedData` in `server.ts`): a JSON
object whose eight schema properties are each optionally present. -/
structure ExtractedData where
  totalAssets : Option String
  odla : Option String
  totalDeficiency : Option String
  bblCbils : Option String
  hmrcPreferential : Option String
  hmrcUnsecured : Option String
  tradeCreditors : Option String
  accountantFirmName : Option String
deriving Repr, DecidableEq

/-- Value of `extractedData` before any extraction: the empty object. -/
def ExtractedData.empty : ExtractedData :=
  ⟨none, none, none, none, none, none, none, none⟩

/-- Request body of `POST /api/extract`: `companyNumber` and `chApiKey`
(the empty string models an absent/falsy field). -/
structure Req where
  companyNumber : String
  chApiKey : String
deriving Repr, DecidableEq

/-- The response row assembled by `res.json(...)` in `server.ts`. Every
field is `Option String`: `some` means the serialized JSON object carries
the key (JSON.stringify drops keys whose value is `undefined`). -/
structure AggregatedRow where
  companyName : Option String
  companyNumber : Option String
  directorName : Option String
  ethnicity : Option String
  totalAssets : Option String
  odla : Option String
  totalDeficiency : Option String
  bblCbils : Option String
  hmrcPreferential : Option String
  hmrcUnsecured : Option String
  tradeCreditors : Option String
  accountantFirmName : Option String
  accountantUrl : Option String
deriving Repr, DecidableEq

/-- Result of one `POST /api/extract` request: 400 on missing inputs,
500 from the catch block, 200 with the aggregated row otherwise. -/
inductive ApiResult where
  | badRequest (error : String)
  | serverError (error : String)
  | ok (row : AggregatedRow)
deriving Repr, DecidableEq

/-- Record of the side-effecting calls one request issued, by stage. -/
structure Trace where
  filingSelected : Bool
  primaryPdfUrls : List String
  primaryAICalls : Nat
  fallbackPdfUrls : List String
  fallbackAICalls : Nat
  ethnicityAICalls : Nat
  searchCalls : Nat
deriving Repr, DecidableEq

/-- Trace of a request that performed no stage at all. -/
def Trace.empty : Trace := ⟨false, [], 0, [], 0, 0, 0⟩

/-- Predicate of the statement-of-affairs selection in `server.ts`:
`item.category === "insolvency" && item.description?.includes("statement-of-affairs")`. -/
def soaPred (item : FilingItem) : Bool :=
  item.category == "insolvency" &&
    (match item.description with
      | some d => strIncludes d "statement-of-affairs"
      | none => false)

/-- Selection `soaItem` of `server.ts`: `items.find(...)` with `soaPred`. -/
def soaItem (items : List FilingItem) : Option FilingItem :=
  items.find? soaPred

/-- Selection `accountItems` of `server.ts`:
`items.filter(item => item.category === "accounts").slice(0, 3)`. -/
def accountItems (items : List FilingItem) : List FilingItem :=
  (items.filter (fun item => item.category == "accounts")).take 3

/-- Environment of one `POST /api/extract` request: the settled outcomes of
every external call the handler can issue. Registry lookups are per-request
responses; `downloadPdf` maps a document-metadata URL to the base64 body or
a thrown error; the AI oracles map their concrete input to the parsed JSON
object of the response (an `Except.error` models any exception in the
`try` block around the call: network failure or JSON parse failure). -/
structure Env where
  companyOk : Bool
  companyStatusText : String
  companyData : CompanyData
  filingOk : Bool
  filingStatusText : String
  filingItems : List FilingItem
  officersOk : Bool
  officers : List Officer
  downloadPdf : String → Except String String
  primaryAI : String → Except Unit ExtractedData
  fallbackAI : String → Except Unit (Option String)
  ethnicityAI : String → Except Unit (Option String)
  webSearch : String → Except Unit (List String)

/-- Director-name resolution of `server.ts`: empty unless the officers
lookup succeeded and some item has `officer_role === "director"`. -/
def findDirector (officersOk : Bool) (officers : List Officer) : String :=
  if officersOk then
    match officers.find? (fun o => o.officer_role == "director") with
    | some d => d.name
    | none => ""
  else ""

/-- Outcome of the primary statement-of-affairs pass: the value of
`extractedData` after step 3, together with the document URLs passed to
`downloadPdf` and the number of AI extraction calls issued there. -/
structure PrimaryOut where
  record : ExtractedData
  pdfUrls : List String
  aiCalls : Nat
deriving Repr

/-- Primary pass of `server.ts` (step 3): if a statement-of-affairs item
with a `document_metadata` link was selected, download it and run the
8-field extraction; any exception is caught and leaves `extractedData`
empty. -/
def primaryPass (env : Env) : PrimaryOut :=
  match soaItem env.filingItems with
  | none => ⟨ExtractedData.empty, [], 0⟩
  | some item =>
    match item.documentMetadata with
    | none => ⟨ExtractedData.empty, [], 0⟩
    | some url =>
      match env.downloadPdf url with
      | .error _ => ⟨ExtractedData.empty, [url], 0⟩
      | .ok pdf =>
        match env.primaryAI pdf with
        | .error _ => ⟨ExtractedData.empty, [url], 1⟩
        | .ok rec => ⟨rec, [url], 1⟩

/-- Outcome of the fallback loop: the accountant-firm-name value it
assigned (if it broke at a success), the candidates it attempted (entered
the `try` block for), the URLs passed to `downloadPdf` and the number of
AI extraction calls issued. -/
structure LoopOut where
  result : Option String
  attempts : List FilingItem
  pdfUrls : List String
  aiCalls : Nat
deriving Repr

/-- Fallback loop body of `server.ts` (step 4): iterate the accounts
candidates in order; skip a candidate with no `document_metadata` link;
otherwise download and run the 1-field extraction, catching any exception
and continuing; assign and break at the first truthy
`accData.accountantFirmName`. -/
def fallbackRun (env : Env) : List FilingItem → LoopOut
  | [] => ⟨none, [], [], 0⟩
  | item :: rest =>
    match item.documentMetadata with
    | none => fallbackRun env rest
    | some url =>
      match env.downloadPdf url with
      | .error _ =>
        let o := fallbackRun env rest
        ⟨o.result, item :: o.attempts, url :: o.pdfUrls, o.aiCalls⟩
      | .ok pdf =>
        match env.fallbackAI pdf with
        | .error _ =>
          let o := fallbackRun env rest
          ⟨o.result, item :: o.attempts, url :: o.pdfUrls, o.aiCalls + 1⟩
        | .ok v =>
          if truthy v then ⟨v, [item], [url], 1⟩
          else
            let o := fallbackRun env rest
            ⟨o.result, item :: o.attempts, url :: o.pdfUrls, o.aiCalls + 1⟩

/-- Effect of step 4 on `extractedData`: when the guard
`!extractedData.accountantFirmName && accountItems.length > 0` holds and
the loop broke at a success, only `accountantFirmName` is reassigned. -/
def applyFallback (env : Env) (accounts : List FilingItem)
    (rec : ExtractedData) : ExtractedData :=
  if !truthy rec.accountantFirmName && !accounts.isEmpty then
    match (fallbackRun env accounts).result with
    | some s => { rec with accountantFirmName := some s }
    | none => rec
  else rec

/-- Handler of `POST /api/extract` in `server.ts`, paired with the trace
of the side-effecting calls it issued. -/
def runExtract (env : Env) (req : Req) : ApiResult × Trace :=
  if req.companyNumber = "" || req.chApiKey = "" then
    (.badRequest "Company Number and Companies House API Key are required.",
      Trace.empty)
  else if !env.companyOk then
    (.serverError ("Failed to fetch company details: " ++ env.companyStatusText),
      Trace.empty)
  else if !env.filingOk then
    (.serverError ("Failed to fetch filing history: " ++ env.filingStatusText),
      Trace.empty)
  else
    let directorName := findDirector env.officersOk env.officers
    let accounts := accountItems env.filingItems
    let prim := primaryPass env
    let needFallback := !truthy prim.record.accountantFirmName && !accounts.isEmpty
    let lo := fallbackRun env accounts
    let extractedData := applyFallback env accounts prim.record
    let ethnicity : Option String :=
      if directorName = "" then some ""
      else
        match env.ethnicityAI directorName with
        | .ok v => v
        | .error _ => some ""
    let accountantUrl : String :=
      if truthy extractedData.accountantFirmName then
        match env.webSearch (extractedData.accountantFirmName.getD "" ++ " UK") with
        | .ok urls =>
          match urls with
          | [] => ""
          | u :: _ => u
        | .error _ => ""
      else ""
    (.ok
      { companyName := some env.companyData.company_name
        companyNumber := some env.companyData.company_number
        directorName := some directorName
        ethnicity := ethnicity
        totalAssets := some (extractedData.totalAssets.getD "")
        odla := some (extractedData.odla.getD "")
        totalDeficiency := some (extractedData.totalDeficiency.getD "")
        bblCbils := some (extractedData.bblCbils.getD "")
        hmrcPreferential := some (extractedData.hmrcPreferential.getD "")
        hmrcUnsecured := some (extractedData.hmrcUnsecured.getD "")
        tradeCreditors := some (extractedData.tradeCreditors.getD "")
        accountantFirmName := some (extractedData.accountantFirmName.getD "")
        accountantUrl := some accountantUrl },
      { filingSelected := true
        primaryPdfUrls := prim.pdfUrls
        primaryAICalls := prim.aiCalls
        fallbackPdfUrls := if needFallback then lo.pdfUrls else []
        fallbackAICalls := if needFallback then lo.aiCalls else 0
        ethnicityAICalls := if directorName = "" then 0 else 1
        searchCalls := if truthy extractedData.accountantFirmName then 1 else 0 })

/-- Alphabet of standard base64 encoding. -/
def base64Table : List Char :=
  "ABCDEFGHIJKLMNOPQRSTUVWXYZabcdefghijklmnopqrstuvwxyz0123456789+/".data

/-- Digit of standard base64 encoding for a 6-bit value. -/
def b64digit (n : Nat) : Char := base64Table.getD n 'A'

/-- UTF-8 bytes of one code point. -/
def charUtf8 (n : Nat) : List Nat :=
  if n < 128 then [n]
  else if n < 2048 then [192 + n / 64, 128 + n % 64]
  else if n < 65536 then
    [224 + n / 4096, 128 + (n / 64) % 64, 128 + n % 64]
  else
    [240 + n / 262144, 128 + (n / 4096) % 64, 128 + (n / 64) % 64, 128 + n % 64]

/-- UTF-8 byte sequence of a string. -/
def strBytes (s : String) : List Nat :=
  s.data.foldr (fun c acc => charUtf8 c.toNat ++ acc) []

/-- Standard base64 encoding of a byte sequence, with padding. -/
def b64chunks : List Nat → List Char
  | [] => []
  | [b0] =>
    let n := b0 * 65536
    [b64digit (n / 262144 % 64), b64digit (n / 4096 % 64), '=', '=']
  | [b0, b1] =>
    let n := b0 * 65536 + b1 * 256
    [b64digit (n / 262144 % 64), b64digit (n / 4096 % 64),
      b64digit (n / 64 % 64), '=']
  | b0 :: b1 :: b2 :: rest =>
    let n := b0 * 65536 + b1 * 256 + b2
    b64digit (n / 262144 % 64) :: b64digit (n / 4096 % 64) ::
      b64digit (n / 64 % 64) :: b64digit (n % 64) :: b64chunks rest

/-- Model of `Buffer.from(s).toString('base64')`. -/
def base64Encode (s : String) : String := String.mk (b64chunks (strBytes s))

/-- Authorization header value the proxy derives from the API key:
`Basic ` followed by `base64(apiKey.trim() + ':')`. -/
def basicAuth (apiKey : String) : String :=
  "Basic " ++ base64Encode (strTrim apiKey ++ ":")

/-- One outgoing HTTP request of the proxy: its URL and its Authorization
header, when one is set. -/
structure ProxyRequest where
  url : String
  authorization : Option String
deriving Repr, DecidableEq

/-- Settled outcome of the metadata hop (`fetch(targetUrl)` followed by
`r.json()`): the parsed body's `links?.document` value, or a thrown
error (network failure or JSON parse failure). -/
structure MetaResponse where
  documentLink : Option String
deriving Repr, DecidableEq

/-- Settled outcome of the document hop (`fetch(docUrlLocal, redirect:
'manual')`): its status and its `location` header, when present. -/
structure DocResponse where
  status : Nat
  location : Option String
deriving Repr, DecidableEq

/-- Environment of one proxy invocation: the settled outcomes of its
three possible fetches. The storage fetch is keyed by URL since the URL
it receives is computed by the proxy. -/
structure ProxyEnv where
  metaFetch : Except String MetaResponse
  docFetch : Except String DocResponse
  storageFetch : String → Except String String

/-- Result the proxy sends back: 400 on missing headers, 500 with the
error message from the catch, or the base64 body. -/
inductive ProxyResult where
  | badRequest
  | fetchError (msg : String)
  | ok (base64 : String)
deriving Repr, DecidableEq

/-- Middleware `ch-pdf-proxy` of `src/vite.config.ts`, paired with the
list of outgoing requests it issued, in order. The third request carries
no Authorization header; its URL is the `location` header when the
document hop answered 3xx with a non-falsy `location`, and the
pre-redirect document URL otherwise. -/
def chPdfProxy (env : ProxyEnv) (targetUrl apiKey : String) :
    ProxyResult × List ProxyRequest :=
  if targetUrl = "" || apiKey = "" then (.badRequest, [])
  else
    let auth := basicAuth apiKey
    let req1 : ProxyRequest := ⟨targetUrl, some auth⟩
    match env.metaFetch with
    | .error msg => (.fetchError msg, [req1])
    | .ok meta =>
      match meta.documentLink with
      | none => (.fetchError "No document link found in Companies House.", [req1])
      | some docUrl =>
        if docUrl = "" then
          (.fetchError "No document link found in Companies House.", [req1])
        else
          let req2 : ProxyRequest := ⟨docUrl, some auth⟩
          match env.docFetch with
          | .error msg => (.fetchError msg, [req1, req2])
          | .ok docRes =>
            let s3Url :=
              if 300 ≤ docRes.status && docRes.status < 400 then
                match docRes.location with
                | some l => if l = "" then docUrl else l
                | none => docUrl
              else docUrl
            let req3 : ProxyRequest := ⟨s3Url, none⟩
            match env.storageFetch s3Url with
            | .error msg => (.fetchError msg, [req1, req2, req3])
            | .ok body => (.ok body, [req1, req2, req3])

/-- Per-candidate outcome of one fallback attempt, as the composition the
loop body performs: download the candidate's document, then run the
1-field extraction; an error stands for any thrown exception on the way. -/
def candidateOutcome (env : Env) (item : FilingItem) :
    Except Unit (Option String) :=
  match item.documentMetadata with
  | some url =>
    match env.downloadPdf url with
    | .error _ => .error ()
    | .ok pdf => env.fallbackAI pdf
  | none => .error ()

/-- Modelled from the spec: the non-empty accountant-firm-name value a
candidate's extraction yields, if any. -/
def extractedName (g : FilingItem → Except Unit (Option String))
    (item : FilingItem) : Option String :=
  match g item with
  | .ok (some s) => if s = "" then none else some s
  | _ => none

/-- Modelled from the spec: the first non-empty extracted value over the
candidate list, in order. -/
def firstNonEmpty (g : FilingItem → Except Unit (Option String))
    (candidates : List FilingItem) : Option String :=
  (candidates.filterMap (extractedName g)).head?

/-- Modelled from the spec: exactly the candidates up to and including
the first one whose extraction yields a non-empty value. -/
def attemptedSpec (g : FilingItem → Except Unit (Option String)) :
    List FilingItem → List FilingItem
  | [] => []
  | item :: rest =>
    if (extractedName g item).isSome then [item]
    else item :: attemptedSpec g rest

/-- C1: the fallback loop evaluates candidates in filing-history order,
its result is the first non-empty extracted accountant-firm-name value,
a candidate's failure does not abort the iteration, and exactly the
candidates up to and including the first success are attempted (stated
for candidate lists whose items carry a document-metadata link; a
candidate without one is skipped, see C10). -/
theorem fallback_first_success (env : Env) (candidates : List FilingItem)
    (hmeta : ∀ item ∈ candidates, item.documentMetadata.isSome) :
    (fallbackRun env candidates).result =
        firstNonEmpty (candidateOutcome env) candidates ∧
      (fallbackRun env candidates).attempts =
        attemptedSpec (candidateOutcome env) candidates := by
  induction candidates with
  | nil => simp [fallbackRun, firstNonEmpty, attemptedSpec]
  | cons item rest ih =>
    have hrest : ∀ x ∈ rest, x.documentMetadata.isSome := by
      intro x hx
      exact hmeta x (List.mem_cons_of_mem _ hx)
    obtain ⟨h1, h2⟩ := ih hrest
    obtain ⟨url, hurl⟩ :=
      Option.isSome_iff_exists.mp (hmeta item (List.mem_cons_self _ _))
    cases hdl : env.downloadPdf url with
    | error e =>
      simp [fallbackRun, hurl, hdl, firstNonEmpty, attemptedSpec,
        extractedName, candidateOutcome, List.filterMap_cons, h1, h2]
    | ok pdf =>
      cases hai : env.fallbackAI pdf with
      | error e =>
        simp [fallbackRun, hurl, hdl, hai, firstNonEmpty, attemptedSpec,
          extractedName, candidateOutcome, List.filterMap_cons, h1, h2]
      | ok v =>
        cases v with
        | none =>
          simp [fallbackRun, hurl, hdl, hai, truthy, firstNonEmpty,
            attemptedSpec, extractedName, candidateOutcome,
            List.filterMap_cons, h1, h2]
        | some s =>
          by_cases hs : s = ""
          · simp [fallbackRun, hurl, hdl, hai, truthy, hs, firstNonEmpty,
              attemptedSpec, extractedName, candidateOutcome,
              List.filterMap_cons, h1, h2]
          · simp [fallbackRun, hurl, hdl, hai, truthy, hs, firstNonEmpty,
              attemptedSpec, extractedName, candidateOutcome,
              List.filterMap_cons]

/-- C2: when a mandatory registry lookup fails (company profile or filing
history responds non-2xx), the handler answers with a descriptive 500
error, emits no aggregated row, and performs no later stage: no filing
selection, no document fetch, no AI extraction, no demographic-inference
call and no web-search call. -/
theorem mandatory_failure_aborts (env : Env) (req : Req)
    (hcn : req.companyNumber ≠ "") (hck : req.chApiKey ≠ "")
    (hfail : env.companyOk = false ∨ env.filingOk = false) :
    ∃ msg, runExtract env req = (.serverError msg, Trace.empty) ∧
      (msg = "Failed to fetch company details: " ++ env.companyStatusText ∨
        msg = "Failed to fetch filing history: " ++ env.filingStatusText) := by
  by_cases hc : env.companyOk
  · have hf : env.filingOk = false := by
      rcases hfail with h | h
      · exact absurd hc (by simp [h])
      · exact h
    exact ⟨_, by simp [runExtract, hcn, hck, hc, hf], Or.inr rfl⟩
  · exact ⟨_, by simp [runExtract, hcn, hck, hc], Or.inl rfl⟩

/-- C5: when some filing-history item satisfies the insolvency predicate
(category is "insolvency" and the description contains
"statement-of-affairs"), the selector returns exactly the first such item
in original filing-history order. -/
theorem soaItem_first_match (items : List FilingItem)
    (h : ∃ item ∈ items, soaPred item = true) :
    ∃ l r item, items = l ++ item :: r ∧ soaItem items = some item ∧
      soaPred item = true ∧ ∀ x ∈ l, soaPred x = false := by
  induction items with
  | nil => simp at h
  | cons a as ih =>
    by_cases ha : soaPred a
    · exact ⟨[], as, a, rfl, by simp [soaItem, List.find?_cons_of_pos _ ha],
        ha, by simp⟩
    · have h' : ∃ item ∈ as, soaPred item = true := by
        rcases h with ⟨item, hmem, hpred⟩
        rcases List.mem_cons.mp hmem with rfl | hmem'
        · exact absurd hpred ha
        · exact ⟨item, hmem', hpred⟩
      obtain ⟨l, r, item, heq, hfind, hpred, hall⟩ := ih h'
      refine ⟨a :: l, r, item, by simp [heq], ?_, hpred, ?_⟩
      · simpa [soaItem, List.find?_cons_of_neg _ (by simpa using ha)]
          using hfind
      · intro x hx
        rcases List.mem_cons.mp hx with rfl | hx'
        · simpa using ha
        · exact hall x hx'

/-- C6: the accounts candidates are an initial segment of the
"accounts"-category items in original filing-history order, of length
exactly the minimum of 3 and the number of such items: more than 3
matches yield exactly the first 3, at most 3 matches are all kept. -/
theorem accountItems_first_three (items : List FilingItem) :
    ∃ rest, items.filter (fun item => item.category == "accounts") =
        accountItems items ++ rest ∧
      (accountItems items).length =
        min 3 (items.filter (fun item => item.category == "accounts")).length := by
  refine ⟨(items.filter (fun item => item.category == "accounts")).drop 3, ?_, ?_⟩
  · simp [accountItems]
  · simp [accountItems, List.length_take]

/-- Helper: the fallback pass leaves all fields of the extracted record
other than the accountant firm name unchanged. -/
lemma applyFallback_untouched (env : Env) (accounts : List FilingItem)
    (rec : ExtractedData) :
    (applyFallback env accounts rec).totalAssets = rec.totalAssets ∧
    (applyFallback env accounts rec).odla = rec.odla ∧
    (applyFallback env accounts rec).totalDeficiency = rec.totalDeficiency ∧
    (applyFallback env accounts rec).bblCbils = rec.bblCbils ∧
    (applyFallback env accounts rec).hmrcPreferential = rec.hmrcPreferential ∧
    (applyFallback env accounts rec).hmrcUnsecured = rec.hmrcUnsecured ∧
    (applyFallback env accounts rec).tradeCreditors = rec.tradeCreditors := by
  unfold applyFallback
  cases h : (!truthy rec.accountantFirmName && !accounts.isEmpty) with
  | false => simp
  | true => cases (fallbackRun env accounts).result <;> simp

/-- C9: the fallback pass modifies at most the accountant-firm-name field
of the extracted record; the other seven extracted fields are unchanged,
whatever the per-candidate outcomes in the environment are. -/
theorem fallback_frame (env : Env) (accounts : List FilingItem)
    (rec : ExtractedData) :
    (applyFallback env accounts rec).totalAssets = rec.totalAssets ∧
    (applyFallback env accounts rec).odla = rec.odla ∧
    (applyFallback env accounts rec).totalDeficiency = rec.totalDeficiency ∧
    (applyFallback env accounts rec).bblCbils = rec.bblCbils ∧
    (applyFallback env accounts rec).hmrcPreferential = rec.hmrcPreferential ∧
    (applyFallback env accounts rec).hmrcUnsecured = rec.hmrcUnsecured ∧
    (applyFallback env accounts rec).tradeCreditors = rec.tradeCreditors :=
  applyFallback_untouched env accounts rec

/-- C10: a candidate without a document-metadata link is silently
skipped. First part: when the insolvency candidate exists but carries no
link, the primary pass issues no document fetch and no extraction call
and the request still answers with a row. Second part: removing a
link-less candidate from the fallback candidate list leaves the whole
loop outcome unchanged (the loop proceeds past it). Third part: every
candidate the fallback loop attempts carries a link, so a link-less
candidate is never attempted and never the loop's successful result. -/
theorem no_metadata_silently_skipped :
    (∀ (env : Env) (req : Req) (item : FilingItem),
      req.companyNumber ≠ "" → req.chApiKey ≠ "" →
      env.companyOk = true → env.filingOk = true →
      soaItem env.filingItems = some item → item.documentMetadata = none →
      (runExtract env req).2.primaryPdfUrls = [] ∧
        (runExtract env req).2.primaryAICalls = 0 ∧
        ∃ row, (runExtract env req).1 = .ok row) ∧
    (∀ (env : Env) (l₁ : List FilingItem) (item : FilingItem)
        (l₂ : List FilingItem), item.documentMetadata = none →
      fallbackRun env (l₁ ++ item :: l₂) = fallbackRun env (l₁ ++ l₂)) ∧
    (∀ (env : Env) (l : List FilingItem) (x : FilingItem),
      x ∈ (fallbackRun env l).attempts → x.documentMetadata.isSome) := by
  refine ⟨?_, ?_, ?_⟩
  · intro env req item hcn hck hco hfo hsoa hmd
    refine ⟨?_, ?_, ?_⟩ <;>
      simp [runExtract, hcn, hck, hco, hfo, primaryPass, hsoa, hmd]
  · intro env l₁ item l₂ hmd
    induction l₁ with
    | nil => simp [fallbackRun, hmd]
    | cons x xs ih =>
      cases hx : x.documentMetadata with
      | none => simpa [fallbackRun, hx] using ih
      | some url =>
        cases hdl : env.downloadPdf url with
        | error e => simp [fallbackRun, hx, hdl, ih]
        | ok pdf =>
          cases hai : env.fallbackAI pdf with
          | error e => simp [fallbackRun, hx, hdl, hai, ih]
          | ok v =>
            by_cases hv : truthy v <;>
              simp [fallbackRun, hx, hdl, hai, hv, ih]
  · intro env l
    induction l with
    | nil => intro x hx; simp [fallbackRun] at hx
    | cons it rest ih =>
      intro x hx
      cases hit : it.documentMetadata with
      | none =>
        simp only [fallbackRun, hit] at hx
        exact ih x hx
      | some url =>
        cases hdl : env.downloadPdf url with
        | error e =>
          simp only [fallbackRun, hit, hdl] at hx
          rcases List.mem_cons.mp hx with rfl | hx'
          · simp [hit]
          · exact ih x hx'
        | ok pdf =>
          cases hai : env.fallbackAI pdf with
          | error e =>
            simp only [fallbackRun, hit, hdl, hai] at hx
            rcases List.mem_cons.mp hx with rfl | hx'
            · simp [hit]
            · exact ih x hx'
          | ok v =>
            by_cases hv : truthy v
            · simp only [fallbackRun, hit, hdl, hai, hv, if_true] at hx
              simp at hx
              subst hx
              simp [hit]
            · simp only [fallbackRun, hit, hdl, hai, hv, if_false] at hx
              simp at hx
              rcases hx with rfl | hx'
              · simp [hit]
              · exact ih x hx'

/-- C3: when the document endpoint answers 3xx with a Location header X,
the secure document fetcher's follow-up request goes to exactly X and
carries no Authorization header; only the two registry hops carry the
derived Basic credential. -/
theorem redirect_location_unauthenticated (env : ProxyEnv)
    (targetUrl apiKey docUrl X : String) (meta : MetaResponse)
    (docRes : DocResponse)
    (ht : targetUrl ≠ "") (hk : apiKey ≠ "")
    (hm : env.metaFetch = .ok meta) (hdoc : meta.documentLink = some docUrl)
    (hdu : docUrl ≠ "") (hd : env.docFetch = .ok docRes)
    (h3 : 300 ≤ docRes.status) (h4 : docRes.status < 400)
    (hloc : docRes.location = some X) (hX : X ≠ "") :
    (chPdfProxy env targetUrl apiKey).2 =
      [⟨targetUrl, some (basicAuth apiKey)⟩,
        ⟨docUrl, some (basicAuth apiKey)⟩, ⟨X, none⟩] := by
  have hcond : (300 ≤ docRes.status && docRes.status < 400) = true := by
    simp [h3, h4]
  simp only [chPdfProxy, ht, hk, hm, hdoc, hdu, hd, hloc, hcond,
    if_false, if_true, decide_eq_true_eq, if_neg hX]
  cases hsf : env.storageFetch X <;> simp [hsf]

/-- C4 (amended): when the document endpoint answers 3xx with no Location
header, the fetcher does not fail: it falls back to the pre-redirect
document URL (the `links.document` value resolved from the metadata
response), requests it without the credential, and returns that
response's body. -/
theorem redirect_no_location_falls_back (env : ProxyEnv)
    (targetUrl apiKey docUrl body : String) (meta : MetaResponse)
    (docRes : DocResponse)
    (ht : targetUrl ≠ "") (hk : apiKey ≠ "")
    (hm : env.metaFetch = .ok meta) (hdoc : meta.documentLink = some docUrl)
    (hdu : docUrl ≠ "") (hd : env.docFetch = .ok docRes)
    (h3 : 300 ≤ docRes.status) (h4 : docRes.status < 400)
    (hloc : docRes.location = none)
    (hsf : env.storageFetch docUrl = .ok body) :
    chPdfProxy env targetUrl apiKey =
      (.ok body,
        [⟨targetUrl, some (basicAuth apiKey)⟩,
          ⟨docUrl, some (basicAuth apiKey)⟩, ⟨docUrl, none⟩]) := by
  have hcond : (300 ≤ docRes.status && docRes.status < 400) = true := by
    simp [h3, h4]
  simp [chPdfProxy, ht, hk, hm, hdoc, hdu, hd, hloc, hcond, hsf]

/-- C7 (amended): once the mandatory registry lookups succeed, the
emitted row carries every AI/search/enrichment field except possibly
`ethnicity` as a present string (empty rather than absent on failure,
skip, or an omitted response field); `ethnicity` is present in every
case but one: it is absent exactly when a director name was found and
the demographic-inference call succeeded with a parsed object lacking
the `ethnicity` property. -/
theorem row_fields_present (env : Env) (req : Req)
    (hcn : req.companyNumber ≠ "") (hck : req.chApiKey ≠ "")
    (hco : env.companyOk = true) (hfo : env.filingOk = true) :
    ∃ row, (runExtract env req).1 = .ok row ∧
      row.directorName.isSome ∧ row.totalAssets.isSome ∧ row.odla.isSome ∧
      row.totalDeficiency.isSome ∧ row.bblCbils.isSome ∧
      row.hmrcPreferential.isSome ∧ row.hmrcUnsecured.isSome ∧
      row.tradeCreditors.isSome ∧ row.accountantFirmName.isSome ∧
      row.accountantUrl.isSome ∧
      (row.ethnicity = none ↔
        findDirector env.officersOk env.officers ≠ "" ∧
          env.ethnicityAI (findDirector env.officersOk env.officers) =
            .ok none) := by
  rw [runExtract]
  rw [if_neg (by simp [hcn, hck]), if_neg (by simp [hco]),
    if_neg (by simp [hfo])]
  refine ⟨_, rfl, rfl, rfl, rfl, rfl, rfl, rfl, rfl, rfl, rfl, rfl, ?_⟩
  by_cases hdn : findDirector env.officersOk env.officers = ""
  · simp [hdn]
  · cases heth : env.ethnicityAI (findDirector env.officersOk env.officers) with
    | error e => simp [hdn, heth]
    | ok v => cases v <;> simp [hdn, heth]

/-- C8: an empty insolvency-candidate selection is a valid outcome: the
request does not abort, the primary pass issues no document fetch and no
extraction call, and a row is still emitted whose extraction fields are
empty except for the accountant firm name, which carries whatever the
fallback pass produced. -/
theorem no_soa_still_succeeds (env : Env) (req : Req)
    (hcn : req.companyNumber ≠ "") (hck : req.chApiKey ≠ "")
    (hco : env.companyOk = true) (hfo : env.filingOk = true)
    (hsoa : soaItem env.filingItems = none) :
    ∃ row, (runExtract env req).1 = .ok row ∧
      (runExtract env req).2.primaryPdfUrls = [] ∧
      (runExtract env req).2.primaryAICalls = 0 ∧
      row.totalAssets = some "" ∧ row.odla = some "" ∧
      row.totalDeficiency = some "" ∧ row.bblCbils = some "" ∧
      row.hmrcPreferential = some "" ∧ row.hmrcUnsecured = some "" ∧
      row.tradeCreditors = some "" ∧
      row.accountantFirmName =
        some ((fallbackRun env (accountItems env.filingItems)).result.getD "") := by
  have hprim : primaryPass env = ⟨ExtractedData.empty, [], 0⟩ := by
    simp [primaryPass, hsoa]
  have happ : applyFallback env (accountItems env.filingItems)
        ⟨none, none, none, none, none, none, none, none⟩ =
      ⟨none, none, none, none, none, none, none,
        (fallbackRun env (accountItems env.filingItems)).result⟩ := by
    cases hacc : accountItems env.filingItems with
    | nil => simp [applyFallback, truthy, fallbackRun]
    | cons a as =>
      cases hr : (fallbackRun env (a :: as)).result <;>
        simp [applyFallback, truthy, hr]
  rw [runExtract]
  rw [if_neg (by simp [hcn, hck]), if_neg (by simp [hco]),
    if_neg (by simp [hfo])]
  refine ⟨_, rfl, ?_, ?_, ?_, ?_, ?_, ?_, ?_, ?_, ?_, ?_⟩ <;>
    simp [hprim, happ, ExtractedData.empty]

/-- Concrete statement-of-affairs filing item used by the witnesses. -/
def itemSoA : FilingItem :=
  ⟨"insolvency", some "statement-of-affairs filed", some "https://reg.example/doc/soa"⟩

/-- Concrete statement-of-affairs item carrying no document link. -/
def itemSoANoLink : FilingItem :=
  ⟨"insolvency", some "statement-of-affairs filed", none⟩

/-- First concrete accounts filing item used by the witnesses. -/
def itemAcc1 : FilingItem :=
  ⟨"accounts", some "annual accounts", some "https://reg.example/doc/acc1"⟩

/-- Second concrete accounts filing item used by the witnesses. -/
def itemAcc2 : FilingItem :=
  ⟨"accounts", some "annual accounts", some "https://reg.example/doc/acc2"⟩

/-- Third concrete accounts filing item used by the witnesses. -/
def itemAcc3 : FilingItem :=
  ⟨"accounts", some "annual accounts", some "https://reg.example/doc/acc3"⟩

/-- Concrete pipeline environment: registry lookups succeed, the first
accounts document's extraction throws, the second yields a firm name. -/
def c1Env : Env :=
  { companyOk := true
    companyStatusText := "OK"
    companyData := ⟨"ACME LTD", "11969947"⟩
    filingOk := true
    filingStatusText := "OK"
    filingItems := []
    officersOk := true
    officers := []
    downloadPdf := fun url =>
      if url = "https://reg.example/doc/acc1" then .ok "P1"
      else if url = "https://reg.example/doc/acc2" then .ok "P2"
      else if url = "https://reg.example/doc/acc3" then .ok "P3"
      else .error "Failed to download PDF: Not Found"
    primaryAI := fun _ => .error ()
    fallbackAI := fun pdf =>
      if pdf = "P1" then .error ()
      else if pdf = "P2" then .ok (some "Jones LLP")
      else .ok (some "Other LLP")
    ethnicityAI := fun _ => .ok (some "")
    webSearch := fun _ => .ok [] }

/-- Witness for C1: with the first candidate's extraction failing and the
second succeeding, the loop result and attempted candidates match the
first-non-empty specification. -/
theorem fallback_first_success_witness :
    (fallbackRun c1Env [itemAcc1, itemAcc2, itemAcc3]).result =
        firstNonEmpty (candidateOutcome c1Env) [itemAcc1, itemAcc2, itemAcc3] ∧
      (fallbackRun c1Env [itemAcc1, itemAcc2, itemAcc3]).attempts =
        attemptedSpec (candidateOutcome c1Env) [itemAcc1, itemAcc2, itemAcc3] :=
  fallback_first_success c1Env [itemAcc1, itemAcc2, itemAcc3] (by decide)

/-- Concrete pipeline environment whose company-profile lookup fails. -/
def c2Env : Env :=
  { c1Env with companyOk := false, companyStatusText := "Not Found" }

/-- Witness for C2: a failing profile lookup yields a server error and an
empty trace. -/
theorem mandatory_failure_aborts_witness :
    ∃ msg, runExtract c2Env ⟨"11969947", "key"⟩ =
        (.serverError msg, Trace.empty) ∧
      (msg = "Failed to fetch company details: " ++ c2Env.companyStatusText ∨
        msg = "Failed to fetch filing history: " ++ c2Env.filingStatusText) :=
  mandatory_failure_aborts c2Env ⟨"11969947", "key"⟩ (by decide) (by decide)
    (Or.inl rfl)

/-- Concrete proxy environment: the document endpoint answers 302 with a
Location header pointing at a pre-signed storage URL. -/
def c3Env : ProxyEnv :=
  { metaFetch := .ok ⟨some "https://doc.example/content"⟩
    docFetch := .ok ⟨302, some "https://s3.example/signed"⟩
    storageFetch := fun url =>
      if url = "https://s3.example/signed" then .ok "UERGYnl0ZXM="
      else .error "unexpected URL" }

/-- Witness for C3: the follow-up request goes to the Location value with
no Authorization header. -/
theorem redirect_location_unauthenticated_witness :
    (chPdfProxy c3Env "https://api.example/document/meta" "mykey").2 =
      [⟨"https://api.example/document/meta", some (basicAuth "mykey")⟩,
        ⟨"https://doc.example/content", some (basicAuth "mykey")⟩,
        ⟨"https://s3.example/signed", none⟩] :=
  redirect_location_unauthenticated c3Env "https://api.example/document/meta"
    "mykey" "https://doc.example/content" "https://s3.example/signed"
    ⟨some "https://doc.example/content"⟩ ⟨302, some "https://s3.example/signed"⟩
    (by decide) (by decide) rfl rfl (by decide) rfl (by decide) (by decide)
    rfl (by decide)

/-- Concrete proxy environment: the document endpoint answers 302 with no
Location header; only the document URL serves the body. -/
def c4Env : ProxyEnv :=
  { metaFetch := .ok ⟨some "https://doc.example/content"⟩
    docFetch := .ok ⟨302, none⟩
    storageFetch := fun url =>
      if url = "https://doc.example/content" then .ok "UERGYnl0ZXM="
      else .error "unexpected URL" }

/-- Counterexample for C4 as stated: on a 302 with no Location the follow-up
request goes to the document URL resolved from the metadata response, not
to the caller-supplied metadata URL, and still succeeds. -/
theorem redirect_no_location_counterexample :
    (chPdfProxy c4Env "https://api.example/document/meta" "mykey").1 =
        .ok "UERGYnl0ZXM=" ∧
      ((chPdfProxy c4Env "https://api.example/document/meta" "mykey").2.map
          ProxyRequest.url) =
        ["https://api.example/document/meta", "https://doc.example/content",
          "https://doc.example/content"] ∧
      ("https://doc.example/content" : String) ≠
        "https://api.example/document/meta" := by
  refine ⟨rfl, rfl, by decide⟩

/-- Witness for C4 (amended): the fall-back request targets the
pre-redirect document URL without the credential and returns its body. -/
theorem redirect_no_location_falls_back_witness :
    chPdfProxy c4Env "https://api.example/document/meta" "mykey" =
      (.ok "UERGYnl0ZXM=",
        [⟨"https://api.example/document/meta", some (basicAuth "mykey")⟩,
          ⟨"https://doc.example/content", some (basicAuth "mykey")⟩,
          ⟨"https://doc.example/content", none⟩]) :=
  redirect_no_location_falls_back c4Env "https://api.example/document/meta"
    "mykey" "https://doc.example/content" "UERGYnl0ZXM="
    ⟨some "https://doc.example/content"⟩ ⟨302, none⟩
    (by decide) (by decide) rfl rfl (by decide) rfl (by decide) (by decide)
    rfl rfl

/-- Concrete filing history: an accounts item before two insolvency
statement-of-affairs items. -/
def c5Items : List FilingItem :=
  [itemAcc1, itemSoA,
    ⟨"insolvency", some "statement-of-affairs amended", some "https://reg.example/doc/soa2"⟩]

/-- Witness for C5: the selector picks the first statement-of-affairs
match of the concrete history. -/
theorem soaItem_first_match_witness :
    ∃ l r item, c5Items = l ++ item :: r ∧ soaItem c5Items = some item ∧
      soaPred item = true ∧ ∀ x ∈ l, soaPred x = false :=
  soaItem_first_match c5Items ⟨itemSoA, by decide, by decide⟩

/-- Concrete pipeline environment: a director is found and the
demographic-inference call parses to an object with no ethnicity field. -/
def c7Env : Env :=
  { c1Env with
    officers := [⟨"JANE DOE", "director"⟩]
    ethnicityAI := fun _ => .ok none }

/-- Counterexample for C7 as stated: the request succeeds and emits a row
whose ethnicity field is absent (undefined is dropped by serialization),
even though the demographic-inference stage neither failed nor was
skipped. -/
theorem row_ethnicity_missing_counterexample :
    ∃ row, (runExtract c7Env ⟨"11969947", "key"⟩).1 = .ok row ∧
      row.ethnicity = none :=
  ⟨⟨some "ACME LTD", some "11969947", some "JANE DOE", none, some "",
      some "", some "", some "", some "", some "", some "", some "",
      some ""⟩, by decide, rfl⟩

/-- Witness for C7 (amended): in the same environment every other
AI/search/enrichment field of the row is present, and the ethnicity field
is absent exactly under the stated condition. -/
theorem row_fields_present_witness :
    ∃ row, (runExtract c7Env ⟨"11969947", "key"⟩).1 = .ok row ∧
      row.directorName.isSome ∧ row.totalAssets.isSome ∧ row.odla.isSome ∧
      row.totalDeficiency.isSome ∧ row.bblCbils.isSome ∧
      row.hmrcPreferential.isSome ∧ row.hmrcUnsecured.isSome ∧
      row.tradeCreditors.isSome ∧ row.accountantFirmName.isSome ∧
      row.accountantUrl.isSome ∧
      (row.ethnicity = none ↔
        findDirector c7Env.officersOk c7Env.officers ≠ "" ∧
          c7Env.ethnicityAI (findDirector c7Env.officersOk c7Env.officers) =
            .ok none) :=
  row_fields_present c7Env ⟨"11969947", "key"⟩ (by decide) (by decide) rfl rfl

/-- Concrete pipeline environment with no insolvency filing: two accounts
candidates, the first extraction yields an empty name, the second "Jones
LLP". -/
def c8Env : Env :=
  { c1Env with
    filingItems := [itemAcc1, itemAcc2]
    fallbackAI := fun pdf =>
      if pdf = "P1" then .ok (some "") else .ok (some "Jones LLP") }

/-- Witness for C8: with no insolvency candidate the request still emits a
row; the primary pass issued nothing and the firm name comes from the
fallback loop. -/
theorem no_soa_still_succeeds_witness :
    ∃ row, (runExtract c8Env ⟨"11969947", "key"⟩).1 = .ok row ∧
      (runExtract c8Env ⟨"11969947", "key"⟩).2.primaryPdfUrls = [] ∧
      (runExtract c8Env ⟨"11969947", "key"⟩).2.primaryAICalls = 0 ∧
      row.totalAssets = some "" ∧ row.odla = some "" ∧
      row.totalDeficiency = some "" ∧ row.bblCbils = some "" ∧
      row.hmrcPreferential = some "" ∧ row.hmrcUnsecured = some "" ∧
      row.tradeCreditors = some "" ∧
      row.accountantFirmName =
        some ((fallbackRun c8Env (accountItems c8Env.filingItems)).result.getD "") :=
  no_soa_still_succeeds c8Env ⟨"11969947", "key"⟩ (by decide) (by decide)
    rfl rfl (by decide)

/-- Concrete pipeline environment whose insolvency candidate carries no
document-metadata link. -/
def c10Env : Env :=
  { c1Env with filingItems := [itemSoANoLink, itemAcc1] }

/-- Witness for C10: the link-less insolvency candidate triggers no
primary fetch or extraction and the request still answers with a row;
removing a link-less candidate from a fallback list changes nothing; a
link-carrying attempted candidate indeed has a link. -/
theorem no_metadata_silently_skipped_witness :
    ((runExtract c10Env ⟨"11969947", "key"⟩).2.primaryPdfUrls = [] ∧
        (runExtract c10Env ⟨"11969947", "key"⟩).2.primaryAICalls = 0 ∧
        ∃ row, (runExtract c10Env ⟨"11969947", "key"⟩).1 = .ok row) ∧
      fallbackRun c10Env ([itemAcc1] ++ itemSoANoLink :: [itemAcc2]) =
        fallbackRun c10Env ([itemAcc1] ++ [itemAcc2]) ∧
      itemAcc1.documentMetadata.isSome :=
  ⟨no_metadata_silently_skipped.1 c10Env ⟨"11969947", "key"⟩ itemSoANoLink
      (by decide) (by decide) rfl rfl (by decide) rfl,
    no_metadata_silently_skipped.2.1 c10Env [itemAcc1] itemSoANoLink
      [itemAcc2] rfl,
    no_metadata_silently_skipped.2.2 c10Env [itemAcc1, itemAcc2] itemAcc1
      (by decide)⟩

end Gamechanger
